import Mathlib

/-!
Verification development for the `my-english-tenses-app` single-page
application (`src/my-english-tenses-app/src/App.js`).

The development is a shallow embedding of the app's session controller:

* JavaScript number semantics for the sentence-count field are modelled by
  `JsNum` (an integer or `NaN`), since `parseInt` can yield `NaN` and the
  code compares and slices with that value.
* The two outbound HTTPS calls to the text-generation service are modelled
  by an `ApiOutcome` parameter: `failure msg` covers a non-ok transport
  status or an unexpected response structure (both are thrown and caught in
  the source, with `msg` the thrown error's message), and `success text`
  carries the first candidate's first part's text.  The prompt composed for
  each request is part of the model so that theorems can talk about which
  request, if any, a handler issues.
* React state is a record `AppState`; each event handler of the source
  becomes a function on `AppState`, and the user-visible behaviour
  (which controls are rendered/enabled on which screen) is the step
  relation `step`.
-/

/-- A JavaScript number as used for the sentence count: either `NaN`
(result of `parseInt` on non-numeric text) or an integer. -/
inductive JsNum where
  | nan : JsNum
  | int : Int → JsNum
deriving DecidableEq

/-- JS `<=` on numbers: any comparison with `NaN` is `false`. -/
def JsNum.leB : JsNum → JsNum → Bool
  | .int a, .int b => decide (a ≤ b)
  | _, _ => false

/-- JS `<` on numbers: any comparison with `NaN` is `false`. -/
def JsNum.ltB : JsNum → JsNum → Bool
  | .int a, .int b => decide (a < b)
  | _, _ => false

/-- JS subtraction: `NaN` is absorbing. -/
def JsNum.sub : JsNum → JsNum → JsNum
  | .int a, .int b => .int (a - b)
  | _, _ => .nan

/-- JS number-to-string conversion as used in template literals. -/
def JsNum.toStr : JsNum → String
  | .nan => "NaN"
  | .int n => toString n

/-- Characters JS `String.prototype.trim` removes (the WhiteSpace and
LineTerminator productions; the common ones are modelled). -/
def jsIsSpace (c : Char) : Bool :=
  c = ' ' || c = '\t' || c = '\n' || c = '\r' || c = '\x0b' || c = '\x0c' ||
  c = '\u00a0' || c = '\u2028' || c = '\u2029' || c = '\ufeff'

/-- JS `trim` on a character list: drop whitespace from both ends. -/
def jsTrimList (cs : List Char) : List Char :=
  ((cs.dropWhile jsIsSpace).reverse.dropWhile jsIsSpace).reverse

/-- JS `String.prototype.trim`. -/
def jsTrim (s : String) : String := ⟨jsTrimList s.data⟩

/-- Auxiliary for `split('\n')`: accumulates the current line (reversed). -/
def splitNlAux : List Char → List Char → List (List Char)
  | [], cur => [cur.reverse]
  | c :: rest, cur =>
    if c = '\n' then cur.reverse :: splitNlAux rest []
    else splitNlAux rest (c :: cur)

/-- JS `String.prototype.split('\n')` (returns `[""]` on the empty string,
like JS). -/
def jsSplitLines (s : String) : List String :=
  (splitNlAux s.data []).map fun cs => ⟨cs⟩

/-- JS line terminators, which `.` in a regex does not match. -/
def isLineTerm (c : Char) : Bool :=
  c = '\n' || c = '\r' || c = '\u2028' || c = '\u2029'

/-- The final run of non-line-terminator characters.  A match of the
`$`-anchored pattern `/(.*) \[(.*?)\]$/` must lie entirely inside this
segment because `.` cannot cross a line terminator. -/
def lastSeg (cs : List Char) : List Char :=
  (cs.reverse.takeWhile fun c => !isLineTerm c).reverse

/-- Whether the two-character marker `' '`, `'['` (the ` [` that opens the
tag) stands at the head of the list. -/
def markerHere : List Char → Option (List Char)
  | c1 :: c2 :: rest => if c1 = ' ' ∧ c2 = '[' then some rest else none
  | _ => none

/-- Whether the marker ` [` occurs anywhere in the list. -/
def hasMarker : List Char → Bool
  | [] => false
  | c :: rest => (markerHere (c :: rest)).isSome || hasMarker rest

/-- Split at the LAST occurrence of the marker `' '`, `'['`: the greedy
first capture `(.*)` of `/(.*) \[(.*?)\]$/` takes the longest possible
prefix, so the ` [` that separates the two captures is the last one. -/
def splitLastMarker : List Char → Option (List Char × List Char)
  | [] => none
  | c :: rest =>
    match splitLastMarker rest with
    | some (pre, post) => some (c :: pre, post)
    | none =>
      match markerHere (c :: rest) with
      | some rest2 => some ([], rest2)
      | none => none

/-- Model of `line.match(/(.*) \[(.*?)\]$/)` from `generateSentences`:
the line must end (inside its final terminator-free segment) with `]`,
preceded somewhere by ` [`; the first capture is everything before the
last such ` [`, the second capture everything between it and the final
`]`.  Returns `(match[1], match[2])`. -/
def jsMatchLine (line : String) : Option (String × String) :=
  let seg := lastSeg line.data
  if seg.getLast? = some ']' then
    match splitLastMarker seg.dropLast with
    | some (pre, post) => some (⟨pre⟩, ⟨post⟩)
    | none => none
  else none

/-- One parsed line of the generation response:
`{ sentence: sentenceText, tense: tenseText }`. -/
structure ParsedSentence where
  sentence : String
  tense : String
deriving DecidableEq

/-- The `for (const line of lines)` loop of `generateSentences`: lines that
do not match the pattern are dropped; matching lines are trimmed; a
sentence already in `usedSentences` is skipped, otherwise it is added to
`usedSentences` and emitted.  Returns the emitted items and the seen set
after the loop (the source mutates the set in place). -/
def parseLoop : List String → List String → List ParsedSentence × List String
  | [], used => ([], used)
  | line :: rest, used =>
    match jsMatchLine line with
    | some (m1, m2) =>
      let sentenceText := jsTrim m1
      let tenseText := jsTrim m2
      if used.contains sentenceText then
        parseLoop rest used
      else
        let r := parseLoop rest (used ++ [sentenceText])
        (⟨sentenceText, tenseText⟩ :: r.1, r.2)
    | none => parseLoop rest used

/-- JS `parseInt` on the sentence-count field's string value (radix-10
form: optional whitespace, optional sign, longest digit prefix; `NaN`
when no digits are found, e.g. on the empty string a number input yields
for non-numeric text). -/
def jsParseInt (s : String) : JsNum :=
  let cs := s.data.dropWhile jsIsSpace
  let digitVal := fun (ds : List Char) =>
    ds.foldl (fun a c => 10 * a + (c.toNat - '0'.toNat)) 0
  match cs with
  | '-' :: rest =>
    let ds := rest.takeWhile Char.isDigit
    if ds.isEmpty then .nan else .int (-(digitVal ds : Nat))
  | '+' :: rest =>
    let ds := rest.takeWhile Char.isDigit
    if ds.isEmpty then .nan else .int (digitVal ds : Nat)
  | _ =>
    let ds := cs.takeWhile Char.isDigit
    if ds.isEmpty then .nan else .int (digitVal ds : Nat)

/-- `Array.prototype.slice(0, end)` length bound: `NaN` converts to `0`,
a negative end counts from the back, and the result is clamped to the
array length. -/
def jsSliceEnd (len : Nat) : JsNum → Nat
  | .nan => 0
  | .int n => if n < 0 then ((len : Int) + n).toNat else min n.toNat len

/-- `arr.slice(0, n)` for JS numbers `n`. -/
def jsSlice (l : List ParsedSentence) (n : JsNum) : List ParsedSentence :=
  l.take (jsSliceEnd l.length n)

-- Sanity checks (kernel-level, no native evaluation).
example : jsMatchLine "Я їм яблуко. [Present Simple]" =
    some ("Я їм яблуко.", "Present Simple") := by decide
example : jsMatchLine "no tag here" = none := by decide
example : jsMatchLine " [Present Simple]" = some ("", "Present Simple") := by decide
example : jsMatchLine "a [x] [y]" = some ("a [x]", "y") := by decide
example : jsParseInt "12.5" = JsNum.int 12 := by decide
example : jsParseInt "abc" = JsNum.nan := by decide
example : jsParseInt "" = JsNum.nan := by decide
example : jsSplitLines "a\nb" = ["a", "b"] := by decide
example : jsTrim "  привіт  " = "привіт" := by decide

/-! ## API calls -/

/-- Result of one call to the text-generation service, as seen by the two
clients after `fetch`/`response.json()`: `failure msg` is a thrown error
(non-ok status — `API error: <status> - <message>` — or an unexpected
response structure), `success text` the first candidate's first content
part's text. -/
inductive ApiOutcome where
  | failure : String → ApiOutcome
  | success : String → ApiOutcome
deriving DecidableEq

/-- The generation prompt composed by `generateSentences` (template
literal of the source, with the optional theme clause). -/
def generationPrompt (tenses : List String) (themes : String)
    (numberOfSentences : JsNum) : String :=
  let chosenTenses := if tenses.length > 0 then tenses else ["Present Simple"]
  let tensesPrompt := String.intercalate ", " chosenTenses
  let base :=
    "Створи " ++ numberOfSentences.toStr ++
    " простих, унікальних речень українською мовою. Кожне речення має відповідати одному з граматичних часів: " ++
    tensesPrompt ++
    ". Надай лише речення, кожне на новому рядку, без зайвого тексту чи нумерації. Кожне речення повинно бути у форматі \"Речення українською [Назва Часу]\". Наприклад: \"Я їм яблуко. [Present Simple]\"."
  if themes ≠ "" then base ++ " Тема речень: " ++ themes ++ "." else base

/-- The review prompt composed by `getSentenceReview`. -/
def reviewPrompt (originalSentenceUk userAnswerEn : String) : String :=
  "Оригінальне речення українською: \"" ++ originalSentenceUk ++
  "\". Відповідь користувача англійською: \"" ++ userAnswerEn ++
  "\". Надайте відповідь по наступній структурі: 1. Чи правильне написання речення(Речення написане правильно, Речення написане неправильно, без зайвих слів), 2. \"" ++
  userAnswerEn ++
  "\" ---- тут варто написати граматично правильну версію речення, якщо речення написано з помилкою і підкреслити виправлені частини, 3 Стисло описати помилки якщо вони є"

/-- What `generateSentences` leaves behind: its return value (`none`
models the `return null` of the catch branch), the seen set after the
call (mutated in place in the source), the error message it set, and the
prompt of the request it issued. -/
structure GenResult where
  generated : Option (List ParsedSentence)
  usedAfter : List String
  errAfter : String
  request : String
deriving DecidableEq

/-- `generateSentences(tenses, themes, numberOfSentences, usedSentences)`
of the source, with the network interaction abstracted into `outcome`.
On failure it sets an error message and returns `null`; on success it
trims the text, splits it into lines, runs the parse loop against
`usedSentences`, and returns the parsed items truncated to
`numberOfSentences`. -/
def generateSentences (tenses : List String) (themes : String)
    (numberOfSentences : JsNum) (usedSentences : List String)
    (outcome : ApiOutcome) : GenResult :=
  let req := generationPrompt tenses themes numberOfSentences
  match outcome with
  | .failure msg =>
    { generated := none
      usedAfter := usedSentences
      errAfter := "Failed to generate sentences: " ++ msg ++ ". Please try again."
      request := req }
  | .success text =>
    let rawSentences := jsTrim text
    let lines := jsSplitLines rawSentences
    let r := parseLoop lines usedSentences
    { generated := some (jsSlice r.1 numberOfSentences)
      usedAfter := r.2
      errAfter := ""
      request := req }

/-- What `getSentenceReview` leaves behind: the string it returns (on
failure the fixed fallback, never a thrown fault), the error message it
set, and the prompt of the request it issued. -/
structure ReviewResult where
  review : String
  errAfter : String
  request : String
deriving DecidableEq

/-- `getSentenceReview(originalSentenceUk, userAnswerEn)` of the source,
network interaction abstracted into `outcome`.  On success it returns the
response text trimmed; on failure it sets an error message and returns
the fixed fallback string. -/
def getSentenceReview (originalSentenceUk userAnswerEn : String)
    (outcome : ApiOutcome) : ReviewResult :=
  let req := reviewPrompt originalSentenceUk userAnswerEn
  match outcome with
  | .failure msg =>
    { review := "Failed to get review. Please try again."
      errAfter := "Failed to get review: " ++ msg ++ "."
      request := req }
  | .success text =>
    { review := jsTrim text
      errAfter := ""
      request := req }

/-! ## Session state and handlers -/

/-- One element of `sentencesData`. -/
structure SentenceData where
  originalSentence : String
  userAnswer : String
  geminiReview : String
  tenseUsed : String
deriving DecidableEq

/-- The two screens (`currentPage` of the source). -/
inductive Page where
  | start : Page
  | practice : Page
deriving DecidableEq

/-- The React state of the `App` component that carries the session logic
(the Firebase `db`/`auth`/`userId` handles are display/telemetry only and
hold no session logic). -/
structure AppState where
  currentPage : Page
  selectedTenses : List String
  selectedThemes : String
  numSentences : JsNum
  currentSentenceIndex : Nat
  sentencesData : List SentenceData
  userAnswer : String
  currentReview : String
  isLoading : Bool
  errorMessage : String
  isAuthReady : Bool
  showTenseInPractice : Bool
  generatedSentencesSet : List String
deriving DecidableEq

/-- The initial state of the component's `useState` hooks. -/
def initState : AppState :=
  { currentPage := .start
    selectedTenses := []
    selectedThemes := ""
    numSentences := .int 5
    currentSentenceIndex := 0
    sentencesData := []
    userAnswer := ""
    currentReview := ""
    isLoading := false
    errorMessage := ""
    isAuthReady := false
    showTenseInPractice := true
    generatedSentencesSet := [] }

/-- `handleTenseChange`: toggle membership of a tense in
`selectedTenses` (remove it if present, else append it). -/
def handleTenseChange (s : AppState) (tense : String) : AppState :=
  { s with selectedTenses :=
      if s.selectedTenses.contains tense then
        s.selectedTenses.filter fun t => t ≠ tense
      else s.selectedTenses ++ [tense] }

/-- `handleStartPractice`: guard on no selected tense and on
`numSentences <= 0` (returning early, with no request issued); otherwise
reset the seen set, run `generateSentences`, and on a non-null non-empty
result populate the practice session at index 0, else stay on the start
screen with an error and `sentencesData` cleared.  The second component
is the request issued (`none` when a guard rejected). -/
def handleStartPractice (s : AppState) (outcome : ApiOutcome) :
    AppState × Option String :=
  if s.selectedTenses.length = 0 then
    ({ s with errorMessage := "Будь ласка, оберіть хоча б один час для практики." }, none)
  else if JsNum.leB s.numSentences (JsNum.int 0) then
    ({ s with errorMessage := "Кількість речень має бути більшою за нуль." }, none)
  else
    match generateSentences s.selectedTenses s.selectedThemes s.numSentences [] outcome with
    | ⟨some generated, usedAfter, _, request⟩ =>
      if generated.length > 0 then
        ({ s with isLoading := false
                  errorMessage := ""
                  generatedSentencesSet := usedAfter
                  sentencesData := generated.map fun item =>
                    { originalSentence := item.sentence
                      userAnswer := ""
                      geminiReview := ""
                      tenseUsed := item.tense }
                  currentSentenceIndex := 0
                  userAnswer := ""
                  currentReview := ""
                  currentPage := .practice }, some request)
      else
        ({ s with isLoading := false
                  generatedSentencesSet := usedAfter
                  errorMessage := "Не вдалося згенерувати речення. Спробуйте змінити критерії."
                  sentencesData := [] }, some request)
    | ⟨none, usedAfter, _, request⟩ =>
      ({ s with isLoading := false
                generatedSentencesSet := usedAfter
                errorMessage := "Не вдалося згенерувати речення. Спробуйте змінити критерії."
                sentencesData := [] }, some request)

/-- `handleGetReview`: guard on an empty (trimmed) answer (no request
issued); otherwise read the current item — the source dereferences
`sentencesData[currentSentenceIndex]`, so an out-of-range index throws,
modelled as `none` — call `getSentenceReview`, and store the returned
string into the item's `userAnswer`/`geminiReview` and into
`currentReview`.  The second component of the result is the request
issued. -/
def handleGetReview (s : AppState) (outcome : ApiOutcome) :
    Option (AppState × Option String) :=
  if jsTrim s.userAnswer = "" then
    some ({ s with errorMessage := "Будь ласка, введіть вашу відповідь." }, none)
  else
    match s.sentencesData[s.currentSentenceIndex]? with
    | none => none
    | some item =>
      let r := getSentenceReview item.originalSentence s.userAnswer outcome
      some
        ({ s with isLoading := false
                  errorMessage := r.errAfter
                  sentencesData := s.sentencesData.set s.currentSentenceIndex
                    { item with userAnswer := s.userAnswer, geminiReview := r.review }
                  currentReview := r.review }, some r.request)

/-- `handleNextOrFinish`: advance while
`currentSentenceIndex < numSentences - 1` (JS comparison, so `false`
when `numSentences` is `NaN`), clearing the per-item fields; otherwise
return to the start screen with every configuration field reset to its
default and the session cleared. -/
def handleNextOrFinish (s : AppState) : AppState :=
  if JsNum.ltB (JsNum.int s.currentSentenceIndex)
      (JsNum.sub s.numSentences (JsNum.int 1)) then
    { s with currentSentenceIndex := s.currentSentenceIndex + 1
             userAnswer := ""
             currentReview := ""
             errorMessage := "" }
  else
    { s with currentPage := .start
             selectedTenses := []
             selectedThemes := ""
             numSentences := .int 5
             sentencesData := []
             currentSentenceIndex := 0
             userAnswer := ""
             currentReview := ""
             errorMessage := ""
             generatedSentencesSet := [] }

/-! ## User-visible step relation

Each constructor is a user interaction (or the auth-ready signal); `step`
returns `none` when the interaction is impossible — the control is not on
the current screen, or its button is rendered `disabled` — or when the
handler would throw. -/

/-- A user interaction with the rendered page. -/
inductive UiAction where
  | authReady : UiAction
  | tenseChange : String → UiAction
  | setThemes : String → UiAction
  | setNumSentences : String → UiAction
  | setShowTense : Bool → UiAction
  | setAnswer : String → UiAction
  | clickStart : ApiOutcome → UiAction
  | clickReview : ApiOutcome → UiAction
  | clickNext : UiAction
deriving DecidableEq

/-- One user-visible step.  The start screen renders the tense
checkboxes, theme field, show-tense toggle, sentence-count field (stored
through `parseInt`) and the begin button (disabled while loading or
before auth is ready); the practice screen renders the answer field, the
review button (disabled while loading or on a blank answer) and the
next/finish button (disabled while loading or while `currentReview` is
empty). -/
def step (s : AppState) : UiAction → Option AppState
  | .authReady => some { s with isAuthReady := true }
  | .tenseChange t =>
    if s.currentPage = Page.start then some (handleTenseChange s t) else none
  | .setThemes v =>
    if s.currentPage = Page.start then some { s with selectedThemes := v } else none
  | .setNumSentences raw =>
    if s.currentPage = Page.start then
      some { s with numSentences := jsParseInt raw }
    else none
  | .setShowTense b =>
    if s.currentPage = Page.start then
      some { s with showTenseInPractice := b }
    else none
  | .setAnswer v =>
    if s.currentPage = Page.practice ∧ s.isLoading = false then
      some { s with userAnswer := v }
    else none
  | .clickStart o =>
    if s.currentPage = Page.start ∧ s.isLoading = false ∧ s.isAuthReady = true then
      some (handleStartPractice s o).1
    else none
  | .clickReview o =>
    if s.currentPage = Page.practice ∧ s.isLoading = false ∧ jsTrim s.userAnswer ≠ "" then
      (handleGetReview s o).map Prod.fst
    else none
  | .clickNext =>
    if s.currentPage = Page.practice ∧ s.isLoading = false ∧ s.currentReview ≠ "" then
      some (handleNextOrFinish s)
    else none

/-- Run a list of interactions from a state. -/
def runFrom (s : AppState) : List UiAction → Option AppState
  | [] => some s
  | a :: rest =>
    match step s a with
    | some s1 => runFrom s1 rest
    | none => none

/-- Run a list of interactions from the initial state. -/
def run (acts : List UiAction) : Option AppState :=
  runFrom initState acts

/-- A concrete five-step session: auth, select "Past Simple", begin with
a one-line response, type an answer, fetch a successful review. -/
def c1WitnessTrace : List UiAction :=
  [UiAction.authReady, UiAction.tenseChange "Past Simple",
   UiAction.clickStart (ApiOutcome.success "Він спав. [Past Simple]"),
   UiAction.setAnswer "He slept.",
   UiAction.clickReview (ApiOutcome.success "Добре.")]

/-- The state `c1WitnessTrace` ought to reach: on the practice screen at
index 0 with one reviewed item. -/
def c1WitnessState : AppState :=
  { currentPage := Page.practice
    selectedTenses := ["Past Simple"]
    selectedThemes := ""
    numSentences := JsNum.int 5
    currentSentenceIndex := 0
    sentencesData := [{ originalSentence := "Він спав."
                        userAnswer := "He slept."
                        geminiReview := "Добре."
                        tenseUsed := "Past Simple" }]
    userAnswer := "He slept."
    currentReview := "Добре."
    isLoading := false
    errorMessage := ""
    isAuthReady := true
    showTenseInPractice := true
    generatedSentencesSet := ["Він спав."] }

/-! ## Parser lemmas -/

theorem markerHere_eq_some {cs r : List Char} :
    markerHere cs = some r ↔ cs = ' ' :: '[' :: r := by
  cases cs with
  | nil => simp [markerHere]
  | cons c1 t =>
    cases t with
    | nil => simp [markerHere]
    | cons c2 rest =>
      by_cases h : c1 = ' ' ∧ c2 = '['
      · obtain ⟨h1, h2⟩ := h
        subst h1; subst h2
        simp [markerHere]
      · rw [markerHere, if_neg h]
        simp only [List.cons.injEq]
        constructor
        · intro hfalse; exact absurd hfalse (by simp)
        · rintro ⟨ha, hb, -⟩; exact absurd ⟨ha, hb⟩ h

theorem markerHere_eq_none_of_head {c1 : Char} (h : c1 ≠ ' ') (t : List Char) :
    markerHere (c1 :: t) = none := by
  cases t with
  | nil => simp [markerHere]
  | cons c2 rest =>
    rw [markerHere, if_neg]
    rintro ⟨h1, -⟩; exact h h1

theorem splitLastMarker_cons (c : Char) (rest : List Char) :
    splitLastMarker (c :: rest) =
      match splitLastMarker rest with
      | some (pre, post) => some (c :: pre, post)
      | none =>
        match markerHere (c :: rest) with
        | some rest2 => some ([], rest2)
        | none => none := rfl

theorem hasMarker_cons (c : Char) (rest : List Char) :
    hasMarker (c :: rest) = ((markerHere (c :: rest)).isSome || hasMarker rest) := rfl

theorem splitLastMarker_eq_none {cs : List Char} :
    splitLastMarker cs = none ↔ hasMarker cs = false := by
  induction cs with
  | nil => simp [splitLastMarker, hasMarker]
  | cons c rest ih =>
    rw [splitLastMarker_cons, hasMarker_cons]
    cases h1 : splitLastMarker rest with
    | some pq =>
      obtain ⟨p, q⟩ := pq
      have hr : hasMarker rest = true := by
        cases hm : hasMarker rest with
        | true => rfl
        | false => rw [ih.mpr hm] at h1; exact absurd h1 (by simp)
      simp [hr]
    | none =>
      have hr : hasMarker rest = false := ih.mp h1
      cases h2 : markerHere (c :: rest) with
      | some r2 => simp [h2]
      | none => simp [h2, hr]

theorem splitLastMarker_eq_some {cs pre post : List Char}
    (h : splitLastMarker cs = some (pre, post)) :
    cs = pre ++ ' ' :: '[' :: post ∧ hasMarker post = false := by
  induction cs generalizing pre post with
  | nil => simp [splitLastMarker] at h
  | cons c rest ih =>
    rw [splitLastMarker_cons] at h
    cases h1 : splitLastMarker rest with
    | some pq =>
      obtain ⟨p, q⟩ := pq
      rw [h1] at h
      simp only [Option.some.injEq, Prod.mk.injEq] at h
      obtain ⟨hpre, hpost⟩ := h
      obtain ⟨hrest, hq⟩ := ih h1
      subst hpre; subst hpost
      exact ⟨by rw [hrest]; simp, hq⟩
    | none =>
      rw [h1] at h
      cases h2 : markerHere (c :: rest) with
      | some r2 =>
        rw [h2] at h
        simp only [Option.some.injEq, Prod.mk.injEq] at h
        obtain ⟨hpre, hpost⟩ := h
        have hcr := markerHere_eq_some.mp h2
        have hrn : hasMarker rest = false := splitLastMarker_eq_none.mp h1
        injection hcr with hc hrest
        subst hpre; subst hc; subst hrest
        have hr2 : hasMarker r2 = false := by
          rw [hasMarker_cons, markerHere_eq_none_of_head (by decide)] at hrn
          simpa using hrn
        subst hpost
        exact ⟨by simp, hr2⟩
      | none => rw [h2] at h; exact absurd h (by simp)

theorem splitLastMarker_append {pre post : List Char}
    (h : hasMarker post = false) :
    splitLastMarker (pre ++ ' ' :: '[' :: post) = some (pre, post) := by
  induction pre with
  | nil =>
    have h1 : splitLastMarker ('[' :: post) = none := by
      apply splitLastMarker_eq_none.mpr
      rw [hasMarker_cons, markerHere_eq_none_of_head (by decide)]
      simpa using h
    have h2 : markerHere (' ' :: '[' :: post) = some post := markerHere_eq_some.mpr rfl
    rw [List.nil_append, splitLastMarker_cons, h1, h2]
  | cons p pre' ih =>
    rw [List.cons_append, splitLastMarker_cons, ih]

theorem lastSeg_eq_self {cs : List Char}
    (h : ∀ c ∈ cs, isLineTerm c = false) :
    lastSeg cs = cs := by
  unfold lastSeg
  rw [List.takeWhile_eq_self_iff.mpr, List.reverse_reverse]
  intro x hx
  rw [h x (List.mem_reverse.mp hx)]
  rfl

theorem eq_dropLast_concat_of_getLast? {l : List Char} {x : Char}
    (h : l.getLast? = some x) : l = l.dropLast ++ [x] := by
  have hne : l ≠ [] := by rintro rfl; simp at h
  have h2 : l.getLast hne = x := by
    rw [List.getLast?_eq_getLast l hne] at h
    exact Option.some.inj h
  rw [← h2, List.dropLast_append_getLast]

/-- Characterization of the regex model on terminator-free lines: a match
succeeds exactly when the line decomposes as `text ++ " [" ++ tag ++ "]"`
with the whole `]` at the end and no further ` [` inside the tag (the
greedy first capture takes the last ` [`). -/
theorem jsMatchLine_iff {line a b : String}
    (hterm : ∀ c ∈ line.data, isLineTerm c = false) :
    jsMatchLine line = some (a, b) ↔
      line.data = a.data ++ ' ' :: '[' :: (b.data ++ [']']) ∧
        hasMarker b.data = false := by
  unfold jsMatchLine
  rw [lastSeg_eq_self hterm]
  constructor
  · intro h
    by_cases hl : line.data.getLast? = some ']'
    · rw [if_pos hl] at h
      cases h2 : splitLastMarker line.data.dropLast with
      | some pq =>
        obtain ⟨pre, post⟩ := pq
        rw [h2] at h
        simp only [Option.some.injEq, Prod.mk.injEq] at h
        obtain ⟨ha, hb⟩ := h
        obtain ⟨hdec, hnm⟩ := splitLastMarker_eq_some h2
        have hline : line.data = line.data.dropLast ++ [']'] :=
          eq_dropLast_concat_of_getLast? hl
        subst ha; subst hb
        refine ⟨?_, hnm⟩
        rw [hline, hdec]
        simp
      | none => rw [h2] at h; exact absurd h (by simp)
    · rw [if_neg hl] at h; exact absurd h (by simp)
  · rintro ⟨hdec, hnm⟩
    have hassoc : line.data = (a.data ++ ' ' :: '[' :: b.data) ++ [']'] := by
      rw [hdec]; simp
    have hl : line.data.getLast? = some ']' := by
      rw [hassoc]; exact List.getLast?_concat _
    rw [if_pos hl]
    have hdrop : line.data.dropLast = a.data ++ ' ' :: '[' :: b.data := by
      rw [hassoc]; exact List.dropLast_concat
    rw [hdrop, splitLastMarker_append hnm]

theorem parseLoop_cons (line : String) (rest used : List String) :
    parseLoop (line :: rest) used =
      match jsMatchLine line with
      | some (m1, m2) =>
        if used.contains (jsTrim m1) then parseLoop rest used
        else
          ((⟨jsTrim m1, jsTrim m2⟩ : ParsedSentence) ::
              (parseLoop rest (used ++ [jsTrim m1])).1,
            (parseLoop rest (used ++ [jsTrim m1])).2)
      | none => parseLoop rest used := rfl

theorem parseLoop_cons_match {line : String} {m1 m2 : String}
    (rest used : List String) (h : jsMatchLine line = some (m1, m2)) :
    parseLoop (line :: rest) used =
      if used.contains (jsTrim m1) then parseLoop rest used
      else
        ((⟨jsTrim m1, jsTrim m2⟩ : ParsedSentence) ::
            (parseLoop rest (used ++ [jsTrim m1])).1,
          (parseLoop rest (used ++ [jsTrim m1])).2) := by
  rw [parseLoop_cons, h]

/-- A non-matching line contributes nothing to the parse loop. -/
theorem parseLoop_drop {line : String} (rest used : List String)
    (h : jsMatchLine line = none) :
    parseLoop (line :: rest) used = parseLoop rest used := by
  rw [parseLoop_cons, h]

/-- If some line matches whose trimmed text is not yet in the seen set,
the parse loop emits at least one item. -/
theorem parseLoop_ne_nil {lines used : List String}
    (h : ∃ l ∈ lines, ∃ a b, jsMatchLine l = some (a, b) ∧ jsTrim a ∉ used) :
    (parseLoop lines used).1 ≠ [] := by
  induction lines generalizing used with
  | nil => obtain ⟨l, hl, -⟩ := h; simp at hl
  | cons l0 rest ih =>
    obtain ⟨l, hl, a, b, hm, hna⟩ := h
    cases hm0 : jsMatchLine l0 with
    | some mm =>
      obtain ⟨m1, m2⟩ := mm
      rw [parseLoop_cons_match rest used hm0]
      by_cases hc : used.contains (jsTrim m1) = true
      · rw [if_pos hc]
        apply ih
        rcases List.mem_cons.mp hl with h0 | h0
        · subst h0
          rw [hm0] at hm
          simp only [Option.some.injEq, Prod.mk.injEq] at hm
          obtain ⟨hm1, -⟩ := hm
          subst hm1
          exact absurd (by simpa using hc) hna
        · exact ⟨l, h0, a, b, hm, hna⟩
      · rw [if_neg hc]
        simp
    | none =>
      rw [parseLoop_drop rest used hm0]
      apply ih
      rcases List.mem_cons.mp hl with h0 | h0
      · subst h0; rw [hm0] at hm; exact absurd hm (by simp)
      · exact ⟨l, h0, a, b, hm, hna⟩

/-- The parse loop never emits a sentence twice, and never emits a
sentence already in the seen set it started from. -/
theorem parseLoop_nodup (lines : List String) : ∀ used : List String,
    ((parseLoop lines used).1.map fun p => p.sentence).Nodup ∧
      ∀ p ∈ (parseLoop lines used).1, p.sentence ∉ used := by
  induction lines with
  | nil => intro used; simp [parseLoop]
  | cons l0 rest ih =>
    intro used
    cases hm : jsMatchLine l0 with
    | none => rw [parseLoop_drop rest used hm]; exact ih used
    | some mm =>
      obtain ⟨m1, m2⟩ := mm
      rw [parseLoop_cons_match rest used hm]
      by_cases hc : used.contains (jsTrim m1) = true
      · rw [if_pos hc]; exact ih used
      · rw [if_neg hc]
        have ih2 := ih (used ++ [jsTrim m1])
        constructor
        · simp only [List.map_cons, List.nodup_cons]
          refine ⟨?_, ih2.1⟩
          intro hmem
          obtain ⟨p, hp, hps⟩ := List.mem_map.mp hmem
          exact ih2.2 p hp (by rw [hps]; simp)
        · intro p hp
          rcases List.mem_cons.mp hp with hp | hp
          · subst hp
            simpa using hc
          · intro hmem
            exact ih2.2 p hp (by simp [hmem])

/-- The seen set only grows across the parse loop, and every emitted
sentence is in the final seen set. -/
theorem parseLoop_used (lines : List String) : ∀ used : List String,
    (∀ x ∈ used, x ∈ (parseLoop lines used).2) ∧
      ∀ p ∈ (parseLoop lines used).1, p.sentence ∈ (parseLoop lines used).2 := by
  induction lines with
  | nil => intro used; simp [parseLoop]
  | cons l0 rest ih =>
    intro used
    cases hm : jsMatchLine l0 with
    | none => rw [parseLoop_drop rest used hm]; exact ih used
    | some mm =>
      obtain ⟨m1, m2⟩ := mm
      rw [parseLoop_cons_match rest used hm]
      by_cases hc : used.contains (jsTrim m1) = true
      · rw [if_pos hc]; exact ih used
      · rw [if_neg hc]
        have ih2 := ih (used ++ [jsTrim m1])
        refine ⟨?_, ?_⟩
        · intro x hx
          exact ih2.1 x (by simp [hx])
        · intro p hp
          rcases List.mem_cons.mp hp with hp | hp
          · subst hp
            exact ih2.1 (jsTrim m1) (by simp)
          · exact ih2.2 p hp

/-! ## Reachability invariant -/

/-- Invariant maintained by every user-visible step: on the start screen
the index is 0 and no review is displayed; on the practice screen the
session was started with an integer count of at least 1 and the index is
below it; and a non-empty displayed review always equals the stored
review of the item at the current index. -/
def StateInv (s : AppState) : Prop :=
  (s.currentPage = Page.start →
    s.currentSentenceIndex = 0 ∧ s.currentReview = "") ∧
  (s.currentPage = Page.practice →
    ∃ n : Int, s.numSentences = JsNum.int n ∧ 1 ≤ n ∧
      (s.currentSentenceIndex : Int) < n) ∧
  (s.currentReview ≠ "" →
    ∃ item, s.sentencesData[s.currentSentenceIndex]? = some item ∧
      item.geminiReview = s.currentReview)

theorem stateInv_init : StateInv initState := by
  refine ⟨fun _ => ⟨rfl, rfl⟩, fun h => ?_, fun h => absurd rfl h⟩
  exact absurd h (by simp [initState])

theorem page_start_ne_practice : Page.start ≠ Page.practice := by
  intro h; exact absurd h (by simp)

theorem page_clash {p : Page} (h1 : p = Page.start) (h2 : p = Page.practice) :
    False := by
  rw [h1] at h2
  exact page_start_ne_practice h2

theorem stateInv_startPractice (s : AppState) (o : ApiOutcome)
    (hpage : s.currentPage = Page.start)
    (hidx : s.currentSentenceIndex = 0) (hrev : s.currentReview = "") :
    StateInv (handleStartPractice s o).1 := by
  have hbase : ∀ t : AppState, t.currentPage = s.currentPage →
      t.currentSentenceIndex = s.currentSentenceIndex →
      t.currentReview = s.currentReview → StateInv t := by
    intro t hp hi hr
    refine ⟨fun _ => ⟨hi.trans hidx, hr.trans hrev⟩, fun hq => ?_, fun hne => ?_⟩
    · exact (page_clash (hp.trans hpage) hq).elim
    · rw [hr, hrev] at hne
      exact absurd rfl hne
  unfold handleStartPractice
  split
  next h1 => exact hbase _ rfl rfl rfl
  next h1 =>
    split
    next h2 => exact hbase _ rfl rfl rfl
    next h2 =>
      split
      next generated usedAfter errA request heq =>
        split
        next hlen =>
          -- non-null, non-empty generation: practice screen at index 0
          refine ⟨fun hq => (page_clash hq rfl).elim, fun _ => ?_,
            fun hne => absurd rfl hne⟩
          cases o with
          | failure msg =>
            exfalso
            rw [show generateSentences s.selectedTenses s.selectedThemes
                s.numSentences [] (ApiOutcome.failure msg) =
                ⟨none, [],
                  "Failed to generate sentences: " ++ msg ++ ". Please try again.",
                  generationPrompt s.selectedTenses s.selectedThemes
                    s.numSentences⟩ from rfl] at heq
            injection heq with hg hrest
            exact absurd hg (by simp)
          | success text =>
            have hg : generated =
                jsSlice (parseLoop (jsSplitLines (jsTrim text)) []).1
                  s.numSentences := by
              rw [show generateSentences s.selectedTenses s.selectedThemes
                  s.numSentences [] (ApiOutcome.success text) =
                  ⟨some (jsSlice (parseLoop (jsSplitLines (jsTrim text)) []).1
                      s.numSentences),
                    (parseLoop (jsSplitLines (jsTrim text)) []).2, "",
                    generationPrompt s.selectedTenses s.selectedThemes
                      s.numSentences⟩ from rfl] at heq
              injection heq with hg hrest
              exact (Option.some.inj hg).symm
            cases hnum : s.numSentences with
            | nan =>
              exfalso
              rw [hnum] at hg
              simp only [jsSlice, jsSliceEnd, List.take_zero] at hg
              subst hg
              simp at hlen
            | int n =>
              rw [hnum] at h2
              simp only [JsNum.leB, decide_eq_true_eq] at h2
              refine ⟨n, rfl, by omega, ?_⟩
              show ((0 : Nat) : Int) < n
              simp only [Nat.cast_zero]
              omega
        next hlen => exact hbase _ rfl rfl rfl
      next usedAfter errA request heq => exact hbase _ rfl rfl rfl

theorem stateInv_getReview (s : AppState) (o : ApiOutcome)
    (s1 : AppState) (req : Option String)
    (hs : StateInv s) (hpage : s.currentPage = Page.practice)
    (h : handleGetReview s o = some (s1, req)) : StateInv s1 := by
  obtain ⟨hstart, hprac, hrev⟩ := hs
  unfold handleGetReview at h
  by_cases ha : jsTrim s.userAnswer = ""
  · rw [if_pos ha] at h
    simp only [Option.some.injEq, Prod.mk.injEq] at h
    obtain ⟨h1, -⟩ := h
    subst h1
    exact ⟨fun hp => (page_clash hp hpage).elim, fun _ => hprac hpage, hrev⟩
  · rw [if_neg ha] at h
    cases hit : s.sentencesData[s.currentSentenceIndex]? with
    | none => rw [hit] at h; exact absurd h (by simp)
    | some item =>
      rw [hit] at h
      simp only [Option.some.injEq, Prod.mk.injEq] at h
      obtain ⟨h1, -⟩ := h
      subst h1
      have hlt : s.currentSentenceIndex < s.sentencesData.length :=
        (List.getElem?_eq_some.mp hit).1
      refine ⟨fun hp => (page_clash hp hpage).elim,
        fun _ => hprac hpage, fun _ => ?_⟩
      exact ⟨_, List.getElem?_set_eq_of_lt _ hlt, rfl⟩

theorem stateInv_nextOrFinish (s : AppState)
    (hs : StateInv s) (hpage : s.currentPage = Page.practice) :
    StateInv (handleNextOrFinish s) := by
  obtain ⟨n, hn, h1n, hlt⟩ := hs.2.1 hpage
  unfold handleNextOrFinish
  by_cases hc : JsNum.ltB (JsNum.int s.currentSentenceIndex)
      (JsNum.sub s.numSentences (JsNum.int 1)) = true
  · rw [if_pos hc]
    rw [hn] at hc
    simp only [JsNum.sub, JsNum.ltB, decide_eq_true_eq] at hc
    refine ⟨fun hp => (page_clash hp hpage).elim,
      fun _ => ⟨n, hn, h1n, ?_⟩, fun hne => absurd rfl hne⟩
    push_cast
    omega
  · rw [if_neg hc]
    exact ⟨fun _ => ⟨rfl, rfl⟩,
      fun hp => (page_clash rfl hp).elim,
      fun hne => absurd rfl hne⟩

theorem stateInv_step {s s1 : AppState} {a : UiAction}
    (hs : StateInv s) (h : step s a = some s1) : StateInv s1 := by
  obtain ⟨hstart, hprac, hrev⟩ := hs
  cases a with
  | authReady =>
    simp only [step, Option.some.injEq] at h
    subst h
    exact ⟨hstart, hprac, hrev⟩
  | tenseChange t =>
    rw [step] at h
    by_cases hp : s.currentPage = Page.start
    · rw [if_pos hp] at h
      simp only [Option.some.injEq] at h
      subst h
      exact ⟨fun _ => hstart hp, fun hq => absurd (hp ▸ hq) page_start_ne_practice,
        hrev⟩
    · rw [if_neg hp] at h; exact absurd h (by simp)
  | setThemes v =>
    rw [step] at h
    by_cases hp : s.currentPage = Page.start
    · rw [if_pos hp] at h
      simp only [Option.some.injEq] at h
      subst h
      exact ⟨fun _ => hstart hp, fun hq => absurd (hp ▸ hq) page_start_ne_practice,
        hrev⟩
    · rw [if_neg hp] at h; exact absurd h (by simp)
  | setNumSentences raw =>
    rw [step] at h
    by_cases hp : s.currentPage = Page.start
    · rw [if_pos hp] at h
      simp only [Option.some.injEq] at h
      subst h
      exact ⟨fun _ => hstart hp, fun hq => absurd (hp ▸ hq) page_start_ne_practice,
        hrev⟩
    · rw [if_neg hp] at h; exact absurd h (by simp)
  | setShowTense b =>
    rw [step] at h
    by_cases hp : s.currentPage = Page.start
    · rw [if_pos hp] at h
      simp only [Option.some.injEq] at h
      subst h
      exact ⟨fun _ => hstart hp, fun hq => absurd (hp ▸ hq) page_start_ne_practice,
        hrev⟩
    · rw [if_neg hp] at h; exact absurd h (by simp)
  | setAnswer v =>
    rw [step] at h
    by_cases hp : s.currentPage = Page.practice ∧ s.isLoading = false
    · rw [if_pos hp] at h
      simp only [Option.some.injEq] at h
      subst h
      exact ⟨fun hq => absurd (hp.1 ▸ hq).symm page_start_ne_practice,
        fun _ => hprac hp.1, hrev⟩
    · rw [if_neg hp] at h; exact absurd h (by simp)
  | clickStart o =>
    rw [step] at h
    by_cases hp : s.currentPage = Page.start ∧ s.isLoading = false ∧
        s.isAuthReady = true
    · rw [if_pos hp] at h
      simp only [Option.some.injEq] at h
      subst h
      obtain ⟨hidx, hrv⟩ := hstart hp.1
      exact stateInv_startPractice s o hp.1 hidx hrv
    · rw [if_neg hp] at h; exact absurd h (by simp)
  | clickReview o =>
    rw [step] at h
    by_cases hp : s.currentPage = Page.practice ∧ s.isLoading = false ∧
        jsTrim s.userAnswer ≠ ""
    · rw [if_pos hp] at h
      cases hr : handleGetReview s o with
      | none => rw [hr] at h; exact absurd h (by simp)
      | some pr =>
        obtain ⟨s2, req⟩ := pr
        rw [hr] at h
        simp only [Option.map_some', Option.some.injEq] at h
        subst h
        exact stateInv_getReview s o s2 req ⟨hstart, hprac, hrev⟩ hp.1 hr
    · rw [if_neg hp] at h; exact absurd h (by simp)
  | clickNext =>
    rw [step] at h
    by_cases hp : s.currentPage = Page.practice ∧ s.isLoading = false ∧
        s.currentReview ≠ ""
    · rw [if_pos hp] at h
      simp only [Option.some.injEq] at h
      subst h
      exact stateInv_nextOrFinish s ⟨hstart, hprac, hrev⟩ hp.1
    · rw [if_neg hp] at h; exact absurd h (by simp)

theorem stateInv_runFrom : ∀ (acts : List UiAction) (s s1 : AppState),
    StateInv s → runFrom s acts = some s1 → StateInv s1 := by
  intro acts
  induction acts with
  | nil =>
    intro s s1 hs h
    simp only [runFrom, Option.some.injEq] at h
    subst h; exact hs
  | cons a rest ih =>
    intro s s1 hs h
    rw [runFrom] at h
    cases hstep : step s a with
    | none => rw [hstep] at h; exact absurd h (by simp)
    | some s2 =>
      rw [hstep] at h
      exact ih s2 s1 (stateInv_step hs hstep) h

theorem stateInv_run {acts : List UiAction} {s : AppState}
    (h : run acts = some s) : StateInv s :=
  stateInv_runFrom acts initState s stateInv_init h

-- Sanity check: a full session — configure, generate two sentences,
-- review the first, advance, review the second, finish.
example :
    (run [UiAction.authReady, UiAction.tenseChange "Present Simple",
          UiAction.setNumSentences "2",
          UiAction.clickStart (ApiOutcome.success
            "Я їм яблуко. [Present Simple]\nВін біжить. [Present Simple]"),
          UiAction.setAnswer "I eat an apple.",
          UiAction.clickReview (ApiOutcome.success "Речення написане правильно"),
          UiAction.clickNext]).map
      (fun s => (s.currentPage, s.currentSentenceIndex,
                 s.sentencesData.map fun d => d.originalSentence)) =
    some (Page.practice, 1, ["Я їм яблуко.", "Він біжить."]) := by decide

/-! ## Handler equations -/

theorem handleStartPractice_failure (s : AppState) (msg : String)
    (h1 : ¬ s.selectedTenses.length = 0)
    (h2 : ¬ JsNum.leB s.numSentences (JsNum.int 0) = true) :
    handleStartPractice s (ApiOutcome.failure msg) =
      ({ s with isLoading := false
                generatedSentencesSet := []
                errorMessage :=
                  "Не вдалося згенерувати речення. Спробуйте змінити критерії."
                sentencesData := [] },
        some (generationPrompt s.selectedTenses s.selectedThemes
          s.numSentences)) := by
  unfold handleStartPractice
  rw [if_neg h1, if_neg h2]
  rfl

theorem handleStartPractice_success_pos (s : AppState) (text : String)
    (h1 : ¬ s.selectedTenses.length = 0)
    (h2 : ¬ JsNum.leB s.numSentences (JsNum.int 0) = true)
    (hlen : (jsSlice (parseLoop (jsSplitLines (jsTrim text)) []).1
      s.numSentences).length > 0) :
    handleStartPractice s (ApiOutcome.success text) =
      ({ s with isLoading := false
                errorMessage := ""
                generatedSentencesSet :=
                  (parseLoop (jsSplitLines (jsTrim text)) []).2
                sentencesData :=
                  (jsSlice (parseLoop (jsSplitLines (jsTrim text)) []).1
                    s.numSentences).map fun item =>
                    { originalSentence := item.sentence
                      userAnswer := ""
                      geminiReview := ""
                      tenseUsed := item.tense }
                currentSentenceIndex := 0
                userAnswer := ""
                currentReview := ""
                currentPage := Page.practice },
        some (generationPrompt s.selectedTenses s.selectedThemes
          s.numSentences)) := by
  unfold handleStartPractice
  rw [if_neg h1, if_neg h2]
  split
  next generated usedAfter errA request heq =>
    rw [show generateSentences s.selectedTenses s.selectedThemes
        s.numSentences [] (ApiOutcome.success text) =
        ⟨some (jsSlice (parseLoop (jsSplitLines (jsTrim text)) []).1
            s.numSentences),
          (parseLoop (jsSplitLines (jsTrim text)) []).2, "",
          generationPrompt s.selectedTenses s.selectedThemes
            s.numSentences⟩ from rfl] at heq
    injection heq with hg hu he hr
    have hg2 := Option.some.inj hg
    subst hg2; subst hu; subst hr
    rw [if_pos hlen]
  next usedAfter errA request heq =>
    rw [show generateSentences s.selectedTenses s.selectedThemes
        s.numSentences [] (ApiOutcome.success text) =
        ⟨some (jsSlice (parseLoop (jsSplitLines (jsTrim text)) []).1
            s.numSentences),
          (parseLoop (jsSplitLines (jsTrim text)) []).2, "",
          generationPrompt s.selectedTenses s.selectedThemes
            s.numSentences⟩ from rfl] at heq
    injection heq with hg hu he hr
    exact absurd hg (by simp)

theorem handleStartPractice_success_empty (s : AppState) (text : String)
    (h1 : ¬ s.selectedTenses.length = 0)
    (h2 : ¬ JsNum.leB s.numSentences (JsNum.int 0) = true)
    (hlen : ¬ (jsSlice (parseLoop (jsSplitLines (jsTrim text)) []).1
      s.numSentences).length > 0) :
    handleStartPractice s (ApiOutcome.success text) =
      ({ s with isLoading := false
                generatedSentencesSet :=
                  (parseLoop (jsSplitLines (jsTrim text)) []).2
                errorMessage :=
                  "Не вдалося згенерувати речення. Спробуйте змінити критерії."
                sentencesData := [] },
        some (generationPrompt s.selectedTenses s.selectedThemes
          s.numSentences)) := by
  unfold handleStartPractice
  rw [if_neg h1, if_neg h2]
  split
  next generated usedAfter errA request heq =>
    rw [show generateSentences s.selectedTenses s.selectedThemes
        s.numSentences [] (ApiOutcome.success text) =
        ⟨some (jsSlice (parseLoop (jsSplitLines (jsTrim text)) []).1
            s.numSentences),
          (parseLoop (jsSplitLines (jsTrim text)) []).2, "",
          generationPrompt s.selectedTenses s.selectedThemes
            s.numSentences⟩ from rfl] at heq
    injection heq with hg hu he hr
    have hg2 := Option.some.inj hg
    subst hg2; subst hu; subst hr
    rw [if_neg hlen]
  next usedAfter errA request heq =>
    rw [show generateSentences s.selectedTenses s.selectedThemes
        s.numSentences [] (ApiOutcome.success text) =
        ⟨some (jsSlice (parseLoop (jsSplitLines (jsTrim text)) []).1
            s.numSentences),
          (parseLoop (jsSplitLines (jsTrim text)) []).2, "",
          generationPrompt s.selectedTenses s.selectedThemes
            s.numSentences⟩ from rfl] at heq
    injection heq with hg hu he hr
    exact absurd hg (by simp)

/-! ## Claims -/

/-- C4: whenever the Review Client call fails, `getSentenceReview` returns
the fixed string "Failed to get review. Please try again." instead of
propagating the fault, so the caller always receives a renderable
string. -/
theorem C4_review_fallback (originalSentenceUk userAnswerEn msg : String) :
    (getSentenceReview originalSentenceUk userAnswerEn
        (ApiOutcome.failure msg)).review =
      "Failed to get review. Please try again." := rfl

/-- C7: each locally detectable invalid setup — no tense selected,
non-positive integer sentence count, or an empty (trimmed) answer
submitted for review — is rejected synchronously: the handler only sets a
user-facing message and issues no request (`none` in the request
component). -/
theorem C7_local_guards :
    (∀ (s : AppState) (o : ApiOutcome), s.selectedTenses = [] →
      handleStartPractice s o =
        ({ s with errorMessage :=
            "Будь ласка, оберіть хоча б один час для практики." }, none)) ∧
    (∀ (s : AppState) (o : ApiOutcome) (n : Int), s.selectedTenses ≠ [] →
      s.numSentences = JsNum.int n → n ≤ 0 →
      handleStartPractice s o =
        ({ s with errorMessage :=
            "Кількість речень має бути більшою за нуль." }, none)) ∧
    (∀ (s : AppState) (o : ApiOutcome), jsTrim s.userAnswer = "" →
      handleGetReview s o =
        some ({ s with errorMessage :=
            "Будь ласка, введіть вашу відповідь." }, none)) := by
  refine ⟨?_, ?_, ?_⟩
  · intro s o h
    unfold handleStartPractice
    rw [if_pos (by rw [h]; rfl)]
  · intro s o n hne hn hle
    unfold handleStartPractice
    rw [if_neg (by simpa [List.length_eq_zero] using hne),
      if_pos (by rw [hn]; simp [JsNum.leB, hle])]
  · intro s o h
    unfold handleGetReview
    rw [if_pos h]

/-- C7 witness: the initial state has no tense selected, so the begin
action is rejected with the message and no request. -/
theorem C7_witness :
    handleStartPractice initState (ApiOutcome.success "Я сплю. [Present Simple]") =
      ({ initState with errorMessage :=
          "Будь ласка, оберіть хоча б один час для практики." }, none) :=
  C7_local_guards.1 initState (ApiOutcome.success "Я сплю. [Present Simple]") rfl

/-- C8: triggering next/finish when the index equals `numSentences - 1`
(the finish case) returns to the start screen, restores all configuration
defaults (no tenses, empty theme, count 5) and clears the session data,
index, answer, review, error message and the seen-sentence set. -/
theorem C8_finish_resets (s : AppState) (n : Int)
    (hn : s.numSentences = JsNum.int n)
    (hidx : (s.currentSentenceIndex : Int) = n - 1) :
    handleNextOrFinish s =
      { s with currentPage := Page.start
               selectedTenses := []
               selectedThemes := ""
               numSentences := JsNum.int 5
               sentencesData := []
               currentSentenceIndex := 0
               userAnswer := ""
               currentReview := ""
               errorMessage := ""
               generatedSentencesSet := [] } := by
  unfold handleNextOrFinish
  rw [if_neg]
  rw [hn]
  simp only [JsNum.sub, JsNum.ltB, decide_eq_true_eq, hidx]
  omega

/-- C8 witness: finishing a one-sentence session resets everything. -/
theorem C8_witness :
    handleNextOrFinish
      { currentPage := Page.practice
        selectedTenses := ["Present Simple"]
        selectedThemes := "їжа"
        numSentences := JsNum.int 1
        currentSentenceIndex := 0
        sentencesData := [{ originalSentence := "Я їм яблуко."
                            userAnswer := "I eat an apple."
                            geminiReview := "Речення написане правильно"
                            tenseUsed := "Present Simple" }]
        userAnswer := "I eat an apple."
        currentReview := "Речення написане правильно"
        isLoading := false
        errorMessage := ""
        isAuthReady := true
        showTenseInPractice := true
        generatedSentencesSet := ["Я їм яблуко."] } =
      { currentPage := Page.start
        selectedTenses := []
        selectedThemes := ""
        numSentences := JsNum.int 5
        currentSentenceIndex := 0
        sentencesData := []
        userAnswer := ""
        currentReview := ""
        isLoading := false
        errorMessage := ""
        isAuthReady := true
        showTenseInPractice := true
        generatedSentencesSet := [] } :=
  C8_finish_resets _ 1 rfl (by decide)

/-- C9: a sentence-count field value that parses to NaN (non-numeric
text) is NOT rejected by the `numSentences <= 0` guard: with at least one
tense selected, the begin action reaches `generateSentences` and issues a
generation request whose prompt carries the NaN count; and the stored
count is the raw `parseInt` result — no code path clamps it to 1-20. -/
theorem C9_nan_count_not_rejected :
    jsParseInt "abc" = JsNum.nan ∧
    (∀ (s : AppState) (o : ApiOutcome), s.selectedTenses ≠ [] →
      s.numSentences = JsNum.nan →
      (handleStartPractice s o).2 =
          some (generationPrompt s.selectedTenses s.selectedThemes JsNum.nan) ∧
        (handleStartPractice s o).1.errorMessage ≠
          "Кількість речень має бути більшою за нуль.") ∧
    (∀ (s : AppState) (raw : String), s.currentPage = Page.start →
      step s (UiAction.setNumSentences raw) =
        some { s with numSentences := jsParseInt raw }) := by
  refine ⟨by decide, ?_, ?_⟩
  · intro s o hne hn
    have h1 : ¬ s.selectedTenses.length = 0 := by
      simpa [List.length_eq_zero] using hne
    have h2 : ¬ JsNum.leB s.numSentences (JsNum.int 0) = true := by
      rw [hn]; simp [JsNum.leB]
    cases o with
    | failure msg =>
      rw [handleStartPractice_failure s msg h1 h2, hn]
      exact ⟨rfl, fun hcon =>
        (show ("Не вдалося згенерувати речення. Спробуйте змінити критерії." : String) ≠
            "Кількість речень має бути більшою за нуль." by decide) hcon⟩
    | success text =>
      by_cases hlen : (jsSlice (parseLoop (jsSplitLines (jsTrim text)) []).1
          s.numSentences).length > 0
      · rw [handleStartPractice_success_pos s text h1 h2 hlen, hn]
        exact ⟨rfl, fun hcon =>
          (show ("" : String) ≠
              "Кількість речень має бути більшою за нуль." by decide) hcon⟩
      · rw [handleStartPractice_success_empty s text h1 h2 hlen, hn]
        exact ⟨rfl, fun hcon =>
          (show ("Не вдалося згенерувати речення. Спробуйте змінити критерії." : String) ≠
              "Кількість речень має бути більшою за нуль." by decide) hcon⟩
  · intro s raw hp
    rw [step, if_pos hp]

/-- C9 witness: with "Present Simple" selected and a NaN count, begin
issues a request (carrying prompt text with a NaN count) and does not
produce the non-positive-count rejection. -/
theorem C9_witness :
    (handleStartPractice
        { initState with selectedTenses := ["Present Simple"]
                         numSentences := JsNum.nan
                         isAuthReady := true }
        (ApiOutcome.failure "API error: 500 - Unknown error")).2 =
        some (generationPrompt ["Present Simple"] "" JsNum.nan) ∧
      (handleStartPractice
        { initState with selectedTenses := ["Present Simple"]
                         numSentences := JsNum.nan
                         isAuthReady := true }
        (ApiOutcome.failure "API error: 500 - Unknown error")).1.errorMessage ≠
        "Кількість речень має бути більшою за нуль." :=
  C9_nan_count_not_rejected.2.1 _ _ (by decide) rfl

/-- C2 counterexample: the claim says a failed review call leaves the
current item's review and the displayed review field EMPTY; in the code
`getSentenceReview` returns the fixed fallback string on failure and
`handleGetReview` stores it into both, so both end up non-empty. -/
theorem C2_counterexample :
    (handleGetReview
        { initState with
            currentPage := Page.practice
            selectedTenses := ["Present Simple"]
            numSentences := JsNum.int 1
            sentencesData := [{ originalSentence := "Я їм яблуко."
                                userAnswer := ""
                                geminiReview := ""
                                tenseUsed := "Present Simple" }]
            userAnswer := "I eat a apple"
            isAuthReady := true
            generatedSentencesSet := ["Я їм яблуко."] }
        (ApiOutcome.failure "Failed to fetch")).map
      (fun r => (r.1.currentReview,
        r.1.sentencesData.map fun d => d.geminiReview,
        r.1.errorMessage)) =
      some ("Failed to get review. Please try again.",
        ["Failed to get review. Please try again."],
        "Failed to get review: Failed to fetch.") ∧
    "Failed to get review. Please try again." ≠ "" :=
  ⟨by decide, by decide⟩

/-- C2 amended: when the review action runs with a non-empty (trimmed)
answer, a FAILED Review Client call stores the fixed fallback string
"Failed to get review. Please try again." (not the empty string) into
both the current PracticeItem's review and the displayed review field,
and sets lastError; a successful call stores the trimmed returned text
into both. -/
theorem C2_review_storage (s : AppState) (item : SentenceData)
    (msg text : String)
    (ha : ¬ jsTrim s.userAnswer = "")
    (hi : s.sentencesData[s.currentSentenceIndex]? = some item) :
    (∃ s1 req, handleGetReview s (ApiOutcome.failure msg) = some (s1, req) ∧
      s1.currentReview = "Failed to get review. Please try again." ∧
      s1.sentencesData[s.currentSentenceIndex]? =
        some { item with userAnswer := s.userAnswer
                         geminiReview :=
                           "Failed to get review. Please try again." } ∧
      s1.errorMessage = "Failed to get review: " ++ msg ++ ".") ∧
    (∃ s2 req, handleGetReview s (ApiOutcome.success text) = some (s2, req) ∧
      s2.currentReview = jsTrim text ∧
      s2.sentencesData[s.currentSentenceIndex]? =
        some { item with userAnswer := s.userAnswer
                         geminiReview := jsTrim text } ∧
      s2.errorMessage = "") := by
  have hlt : s.currentSentenceIndex < s.sentencesData.length :=
    (List.getElem?_eq_some.mp hi).1
  constructor
  · refine ⟨{ s with
        isLoading := false
        errorMessage := "Failed to get review: " ++ msg ++ "."
        sentencesData := s.sentencesData.set s.currentSentenceIndex
          { item with userAnswer := s.userAnswer
                      geminiReview := "Failed to get review. Please try again." }
        currentReview := "Failed to get review. Please try again." },
      some (reviewPrompt item.originalSentence s.userAnswer), ?_, rfl, ?_, rfl⟩
    · unfold handleGetReview
      rw [if_neg ha, hi]
      rfl
    · exact List.getElem?_set_eq_of_lt _ hlt
  · refine ⟨{ s with
        isLoading := false
        errorMessage := ""
        sentencesData := s.sentencesData.set s.currentSentenceIndex
          { item with userAnswer := s.userAnswer
                      geminiReview := jsTrim text }
        currentReview := jsTrim text },
      some (reviewPrompt item.originalSentence s.userAnswer), ?_, rfl, ?_, rfl⟩
    · unfold handleGetReview
      rw [if_neg ha, hi]
      rfl
    · exact List.getElem?_set_eq_of_lt _ hlt

/-- C2 witness: concrete failed review on the item "Я їм яблуко." with
answer "I eat a apple" stores the fallback string and an error. -/
theorem C2_witness :
    ∃ s1 req,
      handleGetReview
        { initState with
            currentPage := Page.practice
            selectedTenses := ["Present Simple"]
            numSentences := JsNum.int 1
            sentencesData := [{ originalSentence := "Я їм яблуко."
                                userAnswer := ""
                                geminiReview := ""
                                tenseUsed := "Present Simple" }]
            userAnswer := "I eat a apple"
            isAuthReady := true
            generatedSentencesSet := ["Я їм яблуко."] }
        (ApiOutcome.failure "Failed to fetch") = some (s1, req) ∧
      s1.currentReview = "Failed to get review. Please try again." ∧
      s1.sentencesData[(0 : Nat)]? =
        some { originalSentence := "Я їм яблуко."
               userAnswer := "I eat a apple"
               geminiReview := "Failed to get review. Please try again."
               tenseUsed := "Present Simple" } ∧
      s1.errorMessage = "Failed to get review: Failed to fetch." :=
  (C2_review_storage
    { initState with
        currentPage := Page.practice
        selectedTenses := ["Present Simple"]
        numSentences := JsNum.int 1
        sentencesData := [{ originalSentence := "Я їм яблуко."
                            userAnswer := ""
                            geminiReview := ""
                            tenseUsed := "Present Simple" }]
        userAnswer := "I eat a apple"
        isAuthReady := true
        generatedSentencesSet := ["Я їм яблуко."] }
    { originalSentence := "Я їм яблуко."
      userAnswer := ""
      geminiReview := ""
      tenseUsed := "Present Simple" }
    "Failed to fetch" "ok" (by decide) rfl).1

/-- C3 counterexample: begin succeeds (moves to Practice) on a response
whose second line has an empty sentence text and whose first line carries
a tag outside the requested tense set — refuting both the "non-empty
originalSentence" and the "tenseUsed drawn from the requested set (or
the default)" guarantees of the claim. -/
theorem C3_counterexample :
    ((fun r : AppState × Option String =>
        (r.1.currentPage,
          r.1.sentencesData.map fun d => (d.originalSentence, d.tenseUsed)))
      (handleStartPractice
        { initState with selectedTenses := ["Present Simple"]
                         numSentences := JsNum.int 2
                         isAuthReady := true }
        (ApiOutcome.success "Привіт. [Bogus]\n [Present Simple]"))) =
      (Page.practice, [("Привіт.", "Bogus"), ("", "Present Simple")]) ∧
    "Bogus" ∉ (["Present Simple"] : List String) ∧
    "Bogus" ≠ "Present Simple" :=
  ⟨by decide, by decide, by decide⟩

/-- C3 amended: for a configuration with at least one selected tense and
an integer count of at least 1, begin either moves to Practice at index 0
with a non-empty session of length at most count (whose items carry the
trimmed text and tag captured from the response lines, with no validation
that the text is non-empty or that the tag lies in the requested set), or
stays on the Start screen with lastError set and the session cleared. -/
theorem C3_begin_dichotomy (s : AppState) (n : Int) (o : ApiOutcome)
    (hp : s.currentPage = Page.start)
    (ht : s.selectedTenses ≠ [])
    (hn : s.numSentences = JsNum.int n) (h1n : 1 ≤ n) :
    (fun s1 : AppState =>
      (s1.currentPage = Page.practice ∧ s1.currentSentenceIndex = 0 ∧
        s1.sentencesData ≠ [] ∧ (s1.sentencesData.length : Int) ≤ n) ∨
      (s1.currentPage = Page.start ∧ s1.errorMessage ≠ "" ∧
        s1.sentencesData = []))
    (handleStartPractice s o).1 := by
  have h1 : ¬ s.selectedTenses.length = 0 := by
    simpa [List.length_eq_zero] using ht
  have h2 : ¬ JsNum.leB s.numSentences (JsNum.int 0) = true := by
    rw [hn]; simp only [JsNum.leB, decide_eq_true_eq]; omega
  cases o with
  | failure msg =>
    rw [handleStartPractice_failure s msg h1 h2]
    exact Or.inr ⟨hp,
      fun hcon =>
        (show ("Не вдалося згенерувати речення. Спробуйте змінити критерії." :
            String) ≠ "" by decide) hcon,
      rfl⟩
  | success text =>
    by_cases hlen : (jsSlice (parseLoop (jsSplitLines (jsTrim text)) []).1
        s.numSentences).length > 0
    · rw [handleStartPractice_success_pos s text h1 h2 hlen]
      refine Or.inl ⟨rfl, rfl, ?_, ?_⟩
      · intro hcon
        rw [List.map_eq_nil_iff] at hcon
        rw [hcon] at hlen
        simp at hlen
      · rw [List.length_map]
        have hb : (jsSlice (parseLoop (jsSplitLines (jsTrim text)) []).1
            s.numSentences).length ≤ n.toNat := by
          rw [hn]
          unfold jsSlice
          calc ((parseLoop (jsSplitLines (jsTrim text)) []).1.take
                (jsSliceEnd (parseLoop (jsSplitLines (jsTrim text)) []).1.length
                  (JsNum.int n))).length
              ≤ jsSliceEnd (parseLoop (jsSplitLines (jsTrim text)) []).1.length
                  (JsNum.int n) := by
                rw [List.length_take]; exact min_le_left _ _
            _ ≤ n.toNat := by
                simp only [jsSliceEnd]
                rw [if_neg (by omega)]
                exact min_le_left _ _
        omega
    · rw [handleStartPractice_success_empty s text h1 h2 hlen]
      exact Or.inr ⟨hp,
        fun hcon =>
          (show ("Не вдалося згенерувати речення. Спробуйте змінити критерії." :
              String) ≠ "" by decide) hcon,
        rfl⟩

/-- C3 witness: with tense "Present Simple" and count 2, a two-line
response yields the Practice screen at index 0 with a session of length
two. -/
theorem C3_witness :
    (fun s1 : AppState =>
      (s1.currentPage = Page.practice ∧ s1.currentSentenceIndex = 0 ∧
        s1.sentencesData ≠ [] ∧ (s1.sentencesData.length : Int) ≤ 2) ∨
      (s1.currentPage = Page.start ∧ s1.errorMessage ≠ "" ∧
        s1.sentencesData = []))
    (handleStartPractice
      { initState with selectedTenses := ["Present Simple"]
                       numSentences := JsNum.int 2
                       isAuthReady := true }
      (ApiOutcome.success
        "Я їм яблуко. [Present Simple]\nВін біжить. [Present Simple]")).1 :=
  C3_begin_dichotomy
    { initState with selectedTenses := ["Present Simple"]
                     numSentences := JsNum.int 2
                     isAuthReady := true }
    2
    (ApiOutcome.success
      "Я їм яблуко. [Present Simple]\nВін біжить. [Present Simple]")
    rfl (by decide) rfl (by decide)

/-- C5: the generation parser splits the response into lines; a line is
accepted exactly when it decomposes as `text ++ " [" ++ tag ++ "]"` with
the `]` at the line's end and no further ` [` inside the tag (greedy text
capture, non-greedy tag capture, `$` anchor); non-matching lines are
dropped without failing the call, so with count at least 1 a response
with at least one well-formed line yields a non-empty result. -/
theorem C5_line_parsing :
    (∀ (line a b : String), (∀ c ∈ line.data, isLineTerm c = false) →
      (jsMatchLine line = some (a, b) ↔
        line.data = a.data ++ ' ' :: '[' :: (b.data ++ [']']) ∧
          hasMarker b.data = false)) ∧
    (∀ (line : String) (rest used : List String), jsMatchLine line = none →
      parseLoop (line :: rest) used = parseLoop rest used) ∧
    (∀ (tenses : List String) (themes text : String) (n : Int), 1 ≤ n →
      (∃ l ∈ jsSplitLines (jsTrim text), (jsMatchLine l).isSome) →
      ∃ ps, (generateSentences tenses themes (JsNum.int n) []
          (ApiOutcome.success text)).generated = some ps ∧ ps ≠ []) := by
  refine ⟨fun line a b hterm => jsMatchLine_iff hterm,
    fun line rest used h => parseLoop_drop rest used h, ?_⟩
  intro tenses themes text n h1n hex
  refine ⟨jsSlice (parseLoop (jsSplitLines (jsTrim text)) []).1 (JsNum.int n),
    rfl, ?_⟩
  have hne : (parseLoop (jsSplitLines (jsTrim text)) []).1 ≠ [] := by
    apply parseLoop_ne_nil
    obtain ⟨l, hl, hsome⟩ := hex
    obtain ⟨⟨a, b⟩, hab⟩ := Option.isSome_iff_exists.mp hsome
    exact ⟨l, hl, a, b, hab, by simp⟩
  intro hcon
  unfold jsSlice at hcon
  rw [List.take_eq_nil_iff] at hcon
  rcases hcon with hcon | hcon
  · simp only [jsSliceEnd] at hcon
    rw [if_neg (by omega)] at hcon
    rcases Nat.min_eq_zero_iff.mp hcon with h0 | h0
    · omega
    · exact hne (List.length_eq_zero.mp h0)
  · exact hne hcon

/-- C5 witness: a response with one malformed and one well-formed line
still yields a non-empty generation result. -/
theorem C5_witness :
    ∃ ps, (generateSentences ["Present Simple"] "" (JsNum.int 2) []
        (ApiOutcome.success "junk line\nЯ їм яблуко. [Present Simple]")).generated =
      some ps ∧ ps ≠ [] :=
  C5_line_parsing.2.2 ["Present Simple"] ""
    "junk line\nЯ їм яблуко. [Present Simple]" 2 (by decide)
    ⟨"Я їм яблуко. [Present Simple]", by decide, by decide⟩

/-- C6: a successful generation call never returns the same (trimmed)
sentence text twice: a parsed sentence already in the seen set is
dropped, so each sentence occurs at most once in the result. -/
theorem C6_no_duplicates (tenses : List String) (themes text : String)
    (n : JsNum) (used : List String) (ps : List ParsedSentence) (x : String)
    (h : (generateSentences tenses themes n used
        (ApiOutcome.success text)).generated = some ps) :
    (ps.map fun p => p.sentence).count x ≤ 1 := by
  have hps : ps = jsSlice (parseLoop (jsSplitLines (jsTrim text)) used).1 n := by
    rw [show (generateSentences tenses themes n used
        (ApiOutcome.success text)).generated =
        some (jsSlice (parseLoop (jsSplitLines (jsTrim text)) used).1 n)
      from rfl] at h
    exact (Option.some.inj h).symm
  subst hps
  have hnodup : ((parseLoop (jsSplitLines (jsTrim text)) used).1.map
      fun p => p.sentence).Nodup :=
    (parseLoop_nodup _ used).1
  have hsub : ((jsSlice (parseLoop (jsSplitLines (jsTrim text)) used).1 n).map
      fun p => p.sentence).Sublist
      ((parseLoop (jsSplitLines (jsTrim text)) used).1.map
        fun p => p.sentence) := by
    unfold jsSlice
    rw [List.map_take]
    exact List.take_sublist _ _
  exact List.nodup_iff_count_le_one.mp (hsub.nodup hnodup) x

/-- C6 witness: a response repeating the same sentence twice yields it
once, so its count in the result is at most 1. -/
theorem C6_witness :
    ((([⟨"Я їм яблуко.", "Present Simple"⟩] : List ParsedSentence).map
      fun p => p.sentence).count "Я їм яблуко.") ≤ 1 :=
  C6_no_duplicates ["Present Simple"] ""
    "Я їм яблуко. [Present Simple]\nЯ їм яблуко. [Present Simple]"
    (JsNum.int 5) [] [⟨"Я їм яблуко.", "Present Simple"⟩] "Я їм яблуко."
    (by decide)

/-- C10: a successful generation call only adds to the seen set; every
parsed (well-formed, non-duplicate) sentence is in the seen set after the
call — including sentences beyond the count cut — while the returned
sequence is drawn from the parsed sequence (truncation happens after the
seen-set updates). -/
theorem C10_seen_set_additive (tenses : List String) (themes text : String)
    (n : JsNum) (used : List String) :
    (∀ x ∈ used,
      x ∈ (generateSentences tenses themes n used
        (ApiOutcome.success text)).usedAfter) ∧
    (∀ p ∈ (parseLoop (jsSplitLines (jsTrim text)) used).1,
      p.sentence ∈ (generateSentences tenses themes n used
        (ApiOutcome.success text)).usedAfter) ∧
    (∀ ps, (generateSentences tenses themes n used
        (ApiOutcome.success text)).generated = some ps →
      ∀ p ∈ ps, p ∈ (parseLoop (jsSplitLines (jsTrim text)) used).1) := by
  have hu : (generateSentences tenses themes n used
      (ApiOutcome.success text)).usedAfter =
      (parseLoop (jsSplitLines (jsTrim text)) used).2 := rfl
  refine ⟨?_, ?_, ?_⟩
  · intro x hx
    rw [hu]
    exact (parseLoop_used _ used).1 x hx
  · intro p hp
    rw [hu]
    exact (parseLoop_used _ used).2 p hp
  · intro ps hps p hp
    have h2 : ps = jsSlice (parseLoop (jsSplitLines (jsTrim text)) used).1 n := by
      rw [show (generateSentences tenses themes n used
          (ApiOutcome.success text)).generated =
          some (jsSlice (parseLoop (jsSplitLines (jsTrim text)) used).1 n)
        from rfl] at hps
      exact (Option.some.inj hps).symm
    subst h2
    unfold jsSlice at hp
    exact List.take_subset _ _ hp

/-- C10 witness: with count 1 and a two-line response, the second parsed
sentence is absent from the returned sequence but present in the seen
set after the call. -/
theorem C10_witness :
    (⟨"Він біжить.", "Present Simple"⟩ : ParsedSentence).sentence ∈
      (generateSentences ["Present Simple"] "" (JsNum.int 1) []
        (ApiOutcome.success
          "Я їм яблуко. [Present Simple]\nВін біжить. [Present Simple]")).usedAfter :=
  (C10_seen_set_additive ["Present Simple"] ""
    "Я їм яблуко. [Present Simple]\nВін біжить. [Present Simple]"
    (JsNum.int 1) []).2.1
    ⟨"Він біжить.", "Present Simple"⟩ (by decide)

/-- C1 counterexample: with the default count 5, a one-line generation
response yields a session of length 1; after reviewing item 0, the next
action advances the index to 1, which lies outside [0, length-1] = [0,0]
of the PracticeItem sequence — the handler compares the index against
`numSentences`, not against the sequence's length. -/
theorem C1_counterexample :
    ((run [UiAction.authReady, UiAction.tenseChange "Present Simple",
        UiAction.clickStart (ApiOutcome.success "Я їм яблуко. [Present Simple]"),
        UiAction.setAnswer "I eat an apple.",
        UiAction.clickReview (ApiOutcome.success "Речення написане правильно"),
        UiAction.clickNext]).map
      fun s => (s.currentPage, s.sentencesData.length,
        s.currentSentenceIndex)) =
      some (Page.practice, 1, 1) ∧
    ¬ ((1 : Nat) ≤ 1 - 1) :=
  ⟨by decide, by decide⟩

/-- C1 amended: in every reachable practice state the index stays within
[0, count-1] for the configured integer count (which is at least 1 —
though the PracticeItem sequence may be shorter than count, so the
original [0, length-1] bound fails); the next action advances the index
by exactly one step (or finishes back to index 0), and fires only when
the item at the current index has a non-empty review. -/
theorem C1_index_bound_and_advance (acts : List UiAction) (s : AppState)
    (h : run acts = some s) :
    (s.currentPage = Page.practice →
      ∃ n : Int, s.numSentences = JsNum.int n ∧ 1 ≤ n ∧
        (0 : Int) ≤ (s.currentSentenceIndex : Int) ∧
        (s.currentSentenceIndex : Int) < n) ∧
    (∀ s1, step s UiAction.clickNext = some s1 →
      (∃ item, s.sentencesData[s.currentSentenceIndex]? = some item ∧
        item.geminiReview ≠ "") ∧
      ((s1.currentPage = Page.practice ∧
          s1.currentSentenceIndex = s.currentSentenceIndex + 1) ∨
        (s1.currentPage = Page.start ∧ s1.currentSentenceIndex = 0))) := by
  obtain ⟨hstart, hprac, hrev⟩ := stateInv_run h
  constructor
  · intro hp
    obtain ⟨n, hn, h1n, hlt⟩ := hprac hp
    exact ⟨n, hn, h1n, by omega, hlt⟩
  · intro s1 hstep
    rw [step] at hstep
    by_cases hcond : s.currentPage = Page.practice ∧ s.isLoading = false ∧
        s.currentReview ≠ ""
    · rw [if_pos hcond] at hstep
      simp only [Option.some.injEq] at hstep
      subst hstep
      obtain ⟨item, hitem, hgr⟩ := hrev hcond.2.2
      refine ⟨⟨item, hitem, by rw [hgr]; exact hcond.2.2⟩, ?_⟩
      unfold handleNextOrFinish
      by_cases hc : JsNum.ltB (JsNum.int s.currentSentenceIndex)
          (JsNum.sub s.numSentences (JsNum.int 1)) = true
      · rw [if_pos hc]
        exact Or.inl ⟨hcond.1, rfl⟩
      · rw [if_neg hc]
        exact Or.inr ⟨rfl, rfl⟩
    · rw [if_neg hcond] at hstep
      exact absurd hstep (by simp)

/-- C1 witness: the five-step session `c1WitnessTrace` reaches
`c1WitnessState`, where the bound and the advance property hold. -/
theorem C1_witness :
    run c1WitnessTrace = some c1WitnessState ∧
    ((c1WitnessState.currentPage = Page.practice →
      ∃ n : Int, c1WitnessState.numSentences = JsNum.int n ∧ 1 ≤ n ∧
        (0 : Int) ≤ (c1WitnessState.currentSentenceIndex : Int) ∧
        (c1WitnessState.currentSentenceIndex : Int) < n) ∧
    (∀ s1, step c1WitnessState UiAction.clickNext = some s1 →
      (∃ item, c1WitnessState.sentencesData[c1WitnessState.currentSentenceIndex]? =
          some item ∧ item.geminiReview ≠ "") ∧
      ((s1.currentPage = Page.practice ∧
          s1.currentSentenceIndex = c1WitnessState.currentSentenceIndex + 1) ∨
        (s1.currentPage = Page.start ∧ s1.currentSentenceIndex = 0)))) :=
  ⟨by decide, C1_index_bound_and_advance c1WitnessTrace c1WitnessState (by decide)⟩
